import Mathlib

/-!
Verification of the finite-volume operator-assembly layer of py-tdgl
(`src/tdgl/finite_volume/matrices.py`).

The mesh data (site count, per-site dual areas, edge endpoint arrays, edge
lengths, dual edge lengths, edge direction components, boundary edge indices)
is modelled with index functions and lists; numpy float arrays are modelled
with rational scalars, complex matrix values with `ℂ`.  Sparse matrices built
by `scipy.sparse.csr_matrix((values, (rows, cols)), shape)` are modelled as a
COO triplet list plus a shape; duplicate triplets sum, which is captured by
`cooEntry` (a single entry) and `applyCoo` (matrix-vector product).
-/

set_option autoImplicit false

namespace Tdgl

/-- The mesh consumed by the assemblers (`mesh` / `mesh.edge_mesh` in the
source).  `numSites = len(mesh.x)`, `areas = mesh.areas`,
`numEdges = len(edge_mesh.edges)`, `edge0/edge1 = edge_mesh.edges[:, 0/1]`,
`edgeLength = edge_mesh.edge_lengths`,
`dualEdgeLength = edge_mesh.dual_edge_lengths`,
`direction0/1 = edge_mesh.directions[:, 0/1]`,
`boundaryEdgeIndices = edge_mesh.boundary_edge_indices`. -/
structure Mesh where
  numSites : ℕ
  areas : ℕ → ℚ
  numEdges : ℕ
  edge0 : ℕ → ℕ
  edge1 : ℕ → ℕ
  edgeLength : ℕ → ℚ
  dualEdgeLength : ℕ → ℚ
  direction0 : ℕ → ℚ
  direction1 : ℕ → ℚ
  boundaryEdgeIndices : List ℕ

/-- A per-edge array of two real components, modelling the `(M, 2)` numpy
array `link_exponents`. -/
def LinkExponents : Type := ℕ → ℚ × ℚ

/-- A Python optional numpy-array value.  `none` is Python `None`; `arr` is a
genuine array; `nullArr` is the zero-dimensional object array
`np.array(None, dtype=object)` that `np.copy(None)` produces. -/
inductive NpValue (α : Type) where
  | none : NpValue α
  | arr : α → NpValue α
  | nullArr : NpValue α

/-- Python `x is None`. -/
def NpValue.isNone {α : Type} : NpValue α → Bool
  | .none => true
  | _ => false

/-- `np.copy`: copying `None` yields the 0-d object array `array(None)`,
copying an array yields an (independent) array with the same contents. -/
def npCopy {α : Type} : NpValue α → NpValue α
  | .none => .nullArr
  | .arr a => .arr a
  | .nullArr => .nullArr

/-- A sparse matrix in COO form: the triplet list handed to
`sp.csr_matrix((values, (rows, cols)), shape=shape)` (duplicates sum). -/
structure SparseMatrix (α : Type) where
  entries : List (ℕ × ℕ × α)
  shape : ℕ × ℕ

/-- Zip three parallel arrays `rows`, `cols`, `values` into a triplet list. -/
def tripletsOf {α : Type} (rows cols : List ℕ) (values : List α) :
    List (ℕ × ℕ × α) :=
  rows.zip (cols.zip values)

/-- The `(i, j)` entry of the sparse matrix assembled from a triplet list:
all triplets at position `(i, j)` sum. -/
def cooEntry {α : Type} [AddCommMonoid α] (l : List (ℕ × ℕ × α)) (i j : ℕ) :
    α :=
  (l.map fun t => if t.1 = i ∧ t.2.1 = j then t.2.2 else 0).sum

/-- Row `i` of the matrix-vector product of the sparse matrix assembled from
a triplet list with the vector `φ`. -/
def applyCoo {α : Type} [NonUnitalNonAssocSemiring α]
    (l : List (ℕ × ℕ × α)) (φ : ℕ → α) (i : ℕ) : α :=
  (l.map fun t => if t.1 = i then t.2.2 * φ t.2.1 else 0).sum

/-- Boolean-mask selection `a[mask]` of numpy, for parallel lists. -/
def maskFilter {α : Type} (l : List α) (mask : List Bool) : List α :=
  ((l.zip mask).filter fun p => p.2).map Prod.fst

/-- The per-edge link variable weight
`np.exp(-1j * (np.asarray(link_exponents) * edge_mesh.directions).sum(axis=1))`
(lines 53-58 and 95-100 of the source); all ones when `link_exponents` is
`None`. -/
noncomputable def lvwFun (m : Mesh) (lx : Option LinkExponents) (k : ℕ) : ℂ :=
  match lx with
  | Option.none => 1
  | Option.some a =>
      Complex.exp (-Complex.I *
        (((a k).1 * m.direction0 k + (a k).2 * m.direction1 k : ℚ) : ℂ))

/-- `build_divergence` (source lines 10-36): an `N × M` matrix with entries
`dual_edge_lengths / areas[edges0]` at `(edges0, k)` and
`-dual_edge_lengths / areas[edges1]` at `(edges1, k)`. -/
def build_divergence (m : Mesh) : SparseMatrix ℚ :=
  let edgeIndices := List.range m.numEdges
  let rows := edgeIndices.map m.edge0 ++ edgeIndices.map m.edge1
  let cols := edgeIndices ++ edgeIndices
  let values :=
    edgeIndices.map (fun k => m.dualEdgeLength k / m.areas (m.edge0 k)) ++
      edgeIndices.map (fun k => -(m.dualEdgeLength k / m.areas (m.edge1 k)))
  ⟨tripletsOf rows cols values, (m.numSites, m.numEdges)⟩

/-- `weights = 1 / edge_mesh.edge_lengths` of `build_gradient` (line 52). -/
def gradWeight (m : Mesh) (k : ℕ) : ℚ := 1 / m.edgeLength k

/-- `build_gradient` (source lines 39-64) with `link_exponents` already
dispatched on `is None`: an `M × N` matrix with entries
`link_variable_weights * weights` at `(k, edges1)` and `-weights` at
`(k, edges0)`. -/
noncomputable def build_gradient_core (m : Mesh) (lx : Option LinkExponents) :
    SparseMatrix ℂ :=
  let edgeIndices := List.range m.numEdges
  let rows := edgeIndices ++ edgeIndices
  let cols := edgeIndices.map m.edge1 ++ edgeIndices.map m.edge0
  let values :=
    edgeIndices.map (fun k => lvwFun m lx k * ((gradWeight m k : ℚ) : ℂ)) ++
      edgeIndices.map (fun k => -((gradWeight m k : ℚ) : ℂ))
  ⟨tripletsOf rows cols values, (m.numEdges, m.numSites)⟩

/-- `build_gradient` on a possibly-`None` (or 0-d copied-`None`)
`link_exponents` argument.  A 0-d object array raises
`TypeError` inside `np.asarray(link_exponents) * edge_mesh.directions` as
soon as the mesh has at least one edge; with no edges the broadcast against
the empty `(0, 2)` direction array never evaluates `None * float` and the
(empty) assembly goes through. -/
noncomputable def build_gradient (m : Mesh) (lx : NpValue LinkExponents) :
    Except String (SparseMatrix ℂ) :=
  match lx with
  | .none => .ok (build_gradient_core m Option.none)
  | .arr a => .ok (build_gradient_core m (Option.some a))
  | .nullArr =>
      if m.numEdges = 0 then .ok (build_gradient_core m Option.none)
      else .error "unsupported operand type for *: NoneType and float"

/-- `weights = edge_mesh.dual_edge_lengths / edge_mesh.edge_lengths` of
`build_laplacian` (line 94). -/
def lapWeight (m : Mesh) (k : ℕ) : ℚ := m.dualEdgeLength k / m.edgeLength k

/-- The row array of `build_laplacian` before masking (line 103):
`np.concatenate([edges0, edges1, edges0, edges1])`. -/
def lapRows (m : Mesh) : List ℕ :=
  (List.range m.numEdges).map m.edge0 ++ (List.range m.numEdges).map m.edge1 ++
    (List.range m.numEdges).map m.edge0 ++ (List.range m.numEdges).map m.edge1

/-- The column array of `build_laplacian` (line 104):
`np.concatenate([edges1, edges0, edges0, edges1])`. -/
def lapCols (m : Mesh) : List ℕ :=
  (List.range m.numEdges).map m.edge1 ++ (List.range m.numEdges).map m.edge0 ++
    (List.range m.numEdges).map m.edge0 ++ (List.range m.numEdges).map m.edge1

/-- Value `weights * link_variable_weights / areas0` at `(edges0, edges1)`
(line 109). -/
noncomputable def lapVal1 (m : Mesh) (lx : Option LinkExponents) (k : ℕ) :
    ℂ :=
  (lapWeight m k : ℂ) * lvwFun m lx k / ((m.areas (m.edge0 k) : ℚ) : ℂ)

/-- Value `weights * link_variable_weights.conjugate() / areas1` at
`(edges1, edges0)` (line 110). -/
noncomputable def lapVal2 (m : Mesh) (lx : Option LinkExponents) (k : ℕ) :
    ℂ :=
  (lapWeight m k : ℂ) * star (lvwFun m lx k) / ((m.areas (m.edge1 k) : ℚ) : ℂ)

/-- Value `-weights / areas0` at `(edges0, edges0)` (line 111). -/
noncomputable def lapVal3 (m : Mesh) (k : ℕ) : ℂ :=
  -((lapWeight m k : ℂ) / ((m.areas (m.edge0 k) : ℚ) : ℂ))

/-- Value `-weights / areas1` at `(edges1, edges1)` (line 112). -/
noncomputable def lapVal4 (m : Mesh) (k : ℕ) : ℂ :=
  -((lapWeight m k : ℂ) / ((m.areas (m.edge1 k) : ℚ) : ℂ))

/-- The value array of `build_laplacian` (lines 107-114). -/
noncomputable def lapValues (m : Mesh) (lx : Option LinkExponents) :
    List ℂ :=
  (List.range m.numEdges).map (lapVal1 m lx) ++
    (List.range m.numEdges).map (lapVal2 m lx) ++
    (List.range m.numEdges).map (lapVal3 m) ++
    (List.range m.numEdges).map (lapVal4 m)

/-- The mask `np.isin(rows, fixed_sites, invert=True)` computed by
`build_laplacian` when `free_rows` is `None` (line 118). -/
def lapFreeRows (m : Mesh) (fixedSites : List ℕ) : List Bool :=
  (lapRows m).map fun r => decide (r ∉ fixedSites)

/-- `build_laplacian` (source lines 67-128) with `fixed_sites` already
normalised to a list (lines 90-91): mask the triplet arrays by `free_rows`
(computing the mask from `fixed_sites` when it is `None`), append the fixed
site diagonal entries with value `fixed_sites_eigenvalues`, and return the
`N × N` matrix together with the mask. -/
noncomputable def build_laplacian_core (m : Mesh) (lx : Option LinkExponents)
    (fixedSites : List ℕ) (freeRows : Option (List Bool)) (E : ℚ) :
    SparseMatrix ℂ × List Bool :=
  let rows := lapRows m
  let cols := lapCols m
  let values := lapValues m lx
  let free : List Bool :=
    match freeRows with
    | Option.none => lapFreeRows m fixedSites
    | Option.some f => f
  let rows2 := maskFilter rows free ++ fixedSites
  let cols2 := maskFilter cols free ++ fixedSites
  let values2 := maskFilter values free ++ fixedSites.map fun _ => (E : ℂ)
  (⟨tripletsOf rows2 cols2 values2, (m.numSites, m.numSites)⟩, free)

/-- `build_laplacian` on possibly-`None` (or 0-d copied-`None`) arguments.
A 0-d `link_exponents` raises `TypeError` at the link-weight broadcast
(lines 98-99) whenever the mesh has edges; a 0-d `fixed_sites` skips the
`is None` normalisation, makes `np.isin` produce an all-true mask, and then
`np.concatenate([rows, fixed_sites])` (line 122) raises `ValueError`. -/
noncomputable def build_laplacian (m : Mesh) (lx : NpValue LinkExponents)
    (fs : NpValue (List ℕ)) (freeRows : Option (List Bool)) (E : ℚ) :
    Except String (SparseMatrix ℂ × List Bool) :=
  match lx with
  | .nullArr =>
      if m.numEdges = 0 then
        match fs with
        | .nullArr => .error "zero-dimensional arrays cannot be concatenated"
        | .none => .ok (build_laplacian_core m Option.none [] freeRows E)
        | .arr l => .ok (build_laplacian_core m Option.none l freeRows E)
      else .error "unsupported operand type for *: NoneType and float"
  | .none =>
      match fs with
      | .nullArr => .error "zero-dimensional arrays cannot be concatenated"
      | .none => .ok (build_laplacian_core m Option.none [] freeRows E)
      | .arr l => .ok (build_laplacian_core m Option.none l freeRows E)
  | .arr a =>
      match fs with
      | .nullArr => .error "zero-dimensional arrays cannot be concatenated"
      | .none => .ok (build_laplacian_core m (Option.some a) [] freeRows E)
      | .arr l => .ok (build_laplacian_core m (Option.some a) l freeRows E)

/-- The COO assembly of `build_neumann_boundary_laplacian` before fixed-site
rows are zeroed (source lines 145-164): an `N × B` matrix whose column `b`
(for the `b`-th boundary edge) holds `boundary_edges_length / (2 * areas)` at
the two endpoint rows of that edge. -/
def neumannCoo (m : Mesh) : SparseMatrix ℚ :=
  let bl := m.boundaryEdgeIndices
  let boundaryIndex := List.range bl.length
  let rows := bl.map m.edge0 ++ bl.map m.edge1
  let cols := boundaryIndex ++ boundaryIndex
  let values :=
    bl.map (fun i => m.edgeLength i / (2 * m.areas (m.edge0 i))) ++
      bl.map (fun i => m.edgeLength i / (2 * m.areas (m.edge1 i)))
  ⟨tripletsOf rows cols values, (m.numSites, bl.length)⟩

/-- A built matrix whose fixed-site rows may have been zeroed after
construction (the `tolil` / row assignment / `tocsr` dance of lines
165-173); represented by its shape and entry function. -/
structure DenseOp where
  shape : ℕ × ℕ
  entry : ℕ → ℕ → ℚ

/-- `build_neumann_boundary_laplacian` (source lines 131-173) with
`fixed_sites` already dispatched on `is not None`: the assembled matrix, with
every row whose index is a fixed site zeroed when a fixed-site list is
given. -/
def build_neumann_boundary_laplacian_core (m : Mesh)
    (fs : Option (List ℕ)) : DenseOp :=
  let nc := neumannCoo m
  match fs with
  | Option.none => ⟨nc.shape, fun s b => cooEntry nc.entries s b⟩
  | Option.some l =>
      ⟨nc.shape, fun s b => if s ∈ l then 0 else cooEntry nc.entries s b⟩

/-- `build_neumann_boundary_laplacian` on a possibly-`None` (or 0-d
copied-`None`) `fixed_sites`: a 0-d object array is `not None`, and row
indexing the `lil` matrix with it raises. -/
def build_neumann_boundary_laplacian (m : Mesh) (fs : NpValue (List ℕ)) :
    Except String DenseOp :=
  match fs with
  | .none => .ok (build_neumann_boundary_laplacian_core m Option.none)
  | .arr l => .ok (build_neumann_boundary_laplacian_core m (Option.some l))
  | .nullArr => .error "invalid index into lil matrix rows"

/-- Modelled from the spec: the closed enumeration `MatrixType` imported
from `tdgl.enums` (that module is not under `src/`); the spec lists exactly
GRADIENT, DIVERGENCE, LAPLACIAN and NEUMANN_BOUNDARY_LAPLACIAN. -/
inductive MatrixType where
  | GRADIENT : MatrixType
  | DIVERGENCE : MatrixType
  | LAPLACIAN : MatrixType
  | NEUMANN_BOUNDARY_LAPLACIAN : MatrixType

/-- The dynamically-typed `matrix_type` argument of `MatrixBuilder.build`:
either a member of the enumeration, or any other Python value (carrying its
`repr` string for the error message). -/
inductive MatrixTypeArg where
  | mk : MatrixType → MatrixTypeArg
  | unknown : String → MatrixTypeArg

/-- The result of `MatrixBuilder.build`: one of the four operators (the
LAPLACIAN case returns the matrix together with the free-row mask, as the
source returns the tuple from `build_laplacian`). -/
inductive Operator where
  | gradient : SparseMatrix ℂ → Operator
  | divergence : SparseMatrix ℚ → Operator
  | laplacian : SparseMatrix ℂ → List Bool → Operator
  | neumann : DenseOp → Operator

/-- The builder state (source lines 176-217): a mesh reference plus the
accumulated fixed sites, their eigenvalue and the link exponents. -/
structure MatrixBuilder where
  mesh : Mesh
  fixed_sites : NpValue (List ℕ)
  fixed_sites_eigenvalue : ℚ
  link_exponents : NpValue LinkExponents

/-- `MatrixBuilder.__init__` (lines 183-187). -/
def MatrixBuilder.init (m : Mesh) : MatrixBuilder :=
  ⟨m, NpValue.none, 1, NpValue.none⟩

/-- `MatrixBuilder.with_dirichlet_boundary` (lines 189-204). -/
def MatrixBuilder.with_dirichlet_boundary (b : MatrixBuilder)
    (fixedSites : List ℕ) (E : ℚ) : MatrixBuilder :=
  { b with fixed_sites := NpValue.arr fixedSites,
           fixed_sites_eigenvalue := E }

/-- `MatrixBuilder.with_link_exponents` (lines 206-217). -/
def MatrixBuilder.with_link_exponents (b : MatrixBuilder)
    (lx : LinkExponents) : MatrixBuilder :=
  { b with link_exponents := NpValue.arr lx }

/-- `MatrixBuilder.build` (lines 219-250): dispatch on the matrix type,
raising `ValueError` for a value outside the enumeration. -/
noncomputable def MatrixBuilder.build (b : MatrixBuilder)
    (matrixType : MatrixTypeArg) (freeRows : Option (List Bool)) :
    Except String Operator :=
  match matrixType with
  | .mk .LAPLACIAN =>
      (build_laplacian b.mesh b.link_exponents b.fixed_sites freeRows
        b.fixed_sites_eigenvalue).map fun p => .laplacian p.1 p.2
  | .mk .NEUMANN_BOUNDARY_LAPLACIAN =>
      (build_neumann_boundary_laplacian b.mesh b.fixed_sites).map .neumann
  | .mk .DIVERGENCE => .ok (.divergence (build_divergence b.mesh))
  | .mk .GRADIENT => (build_gradient b.mesh b.link_exponents).map .gradient
  | .unknown s => .error ("Unknown matrix type: " ++ s ++ ".")

/-- `MatrixBuilder.clone` (lines 252-262): new builder on the same mesh with
`np.copy` of the fixed sites and link exponents. -/
def MatrixBuilder.clone (b : MatrixBuilder) : MatrixBuilder :=
  ⟨b.mesh, npCopy b.fixed_sites, b.fixed_sites_eigenvalue,
    npCopy b.link_exponents⟩

/-- A concrete two-site mesh with one edge `(0, 1)` of length 1, dual edge
length 1, dual areas 1 and 2, used for concrete evaluations. -/
def mesh2 : Mesh where
  numSites := 2
  areas := fun s => if s = 0 then 1 else 2
  numEdges := 1
  edge0 := fun _ => 0
  edge1 := fun _ => 1
  edgeLength := fun _ => 1
  dualEdgeLength := fun _ => 1
  direction0 := fun _ => 1
  direction1 := fun _ => 0
  boundaryEdgeIndices := [0]

/-- An all-zero link-exponent array. -/
def lxZero : LinkExponents := fun _ => (0, 0)

/-! ### List machinery lemmas -/

theorem tripletsOf_append {α : Type} (r1 c1 : List ℕ) (v1 : List α)
    (r2 c2 : List ℕ) (v2 : List α) (hc : r1.length = c1.length)
    (hv : c1.length = v1.length) :
    tripletsOf (r1 ++ r2) (c1 ++ c2) (v1 ++ v2) =
      tripletsOf r1 c1 v1 ++ tripletsOf r2 c2 v2 := by
  induction r1 generalizing c1 v1 with
  | nil =>
      cases c1 with
      | nil =>
          cases v1 with
          | nil => simp [tripletsOf]
          | cons b t => simp at hv
      | cons b t => simp at hc
  | cons a t ih =>
      cases c1 with
      | nil => simp at hc
      | cons b tc =>
          cases v1 with
          | nil => simp at hv
          | cons c tv =>
              simp only [List.cons_append, tripletsOf, List.zip_cons_cons]
              simpa [tripletsOf] using ih tc tv (by simpa using hc)
                (by simpa using hv)

theorem tripletsOf_map_all {α : Type} (l : List ℕ) (r c : ℕ → ℕ)
    (v : ℕ → α) :
    tripletsOf (l.map r) (l.map c) (l.map v) =
      l.map fun k => (r k, c k, v k) := by
  induction l with
  | nil => rfl
  | cons a t ih => simpa [tripletsOf] using ih

theorem tripletsOf_map_left {α : Type} (l : List ℕ) (c : ℕ → ℕ)
    (v : ℕ → α) :
    tripletsOf l (l.map c) (l.map v) = l.map fun k => (k, c k, v k) := by
  induction l with
  | nil => rfl
  | cons a t ih => simpa [tripletsOf] using ih

theorem tripletsOf_map_middle {α : Type} (l : List ℕ) (r : ℕ → ℕ)
    (v : ℕ → α) :
    tripletsOf (l.map r) l (l.map v) = l.map fun k => (r k, k, v k) := by
  induction l with
  | nil => rfl
  | cons a t ih => simpa [tripletsOf] using ih

theorem tripletsOf_left_left {α : Type} (l : List ℕ) (v : ℕ → α) :
    tripletsOf l l (l.map v) = l.map fun k => (k, k, v k) := by
  induction l with
  | nil => rfl
  | cons a t ih => simpa [tripletsOf] using ih

theorem tripletsOf_map_range {α : Type} (bl : List ℕ) (r : ℕ → ℕ)
    (v : ℕ → α) :
    tripletsOf (bl.map r) (List.range bl.length) (bl.map v) =
      (List.range bl.length).map fun p => (r (bl.getD p 0), p, v (bl.getD p 0)) := by
  apply List.ext_getElem
  · simp [tripletsOf]
  · intro i h1 h2
    have hi : i < bl.length := by simpa [tripletsOf] using h1
    simp [tripletsOf, List.getElem?_eq_getElem hi]

theorem maskFilter_append {α : Type} (l1 l2 : List α) (m1 m2 : List Bool)
    (h : l1.length = m1.length) :
    maskFilter (l1 ++ l2) (m1 ++ m2) =
      maskFilter l1 m1 ++ maskFilter l2 m2 := by
  induction l1 generalizing m1 with
  | nil =>
      cases m1 with
      | nil => rfl
      | cons b t => simp at h
  | cons a t ih =>
      cases m1 with
      | nil => simp at h
      | cons b tm =>
          cases b <;>
            simpa [maskFilter] using ih tm (by simpa using h)

theorem maskFilter_map_map {α : Type} (l : List ℕ) (f : ℕ → α)
    (q : ℕ → Bool) :
    maskFilter (l.map f) (l.map q) = (l.filter q).map f := by
  induction l with
  | nil => rfl
  | cons a t ih =>
      by_cases hq : q a <;> simp [maskFilter, List.filter_cons, hq] <;>
        simpa [maskFilter] using ih

theorem cooEntry_append {α : Type} [AddCommMonoid α]
    (l1 l2 : List (ℕ × ℕ × α)) (i j : ℕ) :
    cooEntry (l1 ++ l2) i j = cooEntry l1 i j + cooEntry l2 i j := by
  simp [cooEntry]

theorem applyCoo_append {α : Type} [NonUnitalNonAssocSemiring α]
    (l1 l2 : List (ℕ × ℕ × α)) (φ : ℕ → α) (i : ℕ) :
    applyCoo (l1 ++ l2) φ i = applyCoo l1 φ i + applyCoo l2 φ i := by
  simp [applyCoo]

theorem cooEntry_map {α β : Type} [AddCommMonoid α] (l : List β)
    (g : β → ℕ × ℕ × α) (i j : ℕ) :
    cooEntry (l.map g) i j =
      (l.map fun k =>
        if (g k).1 = i ∧ (g k).2.1 = j then (g k).2.2 else 0).sum := by
  simp only [cooEntry, List.map_map]
  rfl

theorem applyCoo_map {α β : Type} [NonUnitalNonAssocSemiring α] (l : List β)
    (g : β → ℕ × ℕ × α) (φ : ℕ → α) (i : ℕ) :
    applyCoo (l.map g) φ i =
      (l.map fun k => if (g k).1 = i then (g k).2.2 * φ (g k).2.1 else 0).sum := by
  simp only [applyCoo, List.map_map]
  rfl

theorem sum_filter_map {α β : Type} [AddCommMonoid α] (l : List β)
    (q : β → Bool) (f : β → α) :
    ((l.filter q).map f).sum = (l.map fun k => if q k then f k else 0).sum := by
  induction l with
  | nil => rfl
  | cons a t ih =>
      by_cases hq : q a <;> simp [List.filter_cons, hq, ih]

theorem sum_map_congr {α β : Type} [AddCommMonoid α] (l : List β)
    (f g : β → α) (h : ∀ a ∈ l, f a = g a) :
    (l.map f).sum = (l.map g).sum := by
  rw [List.map_congr_left h]

theorem sum_map_add {α β : Type} [AddCommMonoid α] (l : List β)
    (f g : β → α) :
    (l.map f).sum + (l.map g).sum = (l.map fun x => f x + g x).sum := by
  induction l with
  | nil => simp
  | cons a t ih => simp [← ih]; abel

theorem mul_sum_map {α β : Type} [NonUnitalNonAssocSemiring α] (l : List β)
    (c : α) (f : β → α) :
    c * (l.map f).sum = (l.map fun x => c * f x).sum := by
  induction l with
  | nil => simp
  | cons a t ih => simp [mul_add, ih]

theorem list_sum_im (l : List ℂ) : l.sum.im = (l.map Complex.im).sum := by
  induction l with
  | nil => simp
  | cons a t ih => simp [ih]

theorem sum_ite_of_not_mem {α : Type} [AddCommMonoid α] (l : List ℕ) (e : ℕ)
    (f : ℕ → α) (he : e ∉ l) :
    (l.map fun k => if k = e then f k else 0).sum = 0 := by
  induction l with
  | nil => rfl
  | cons a t ih =>
      have ha : a ≠ e := fun h => he (h ▸ List.mem_cons_self a t)
      have ht : e ∉ t := fun h => he (List.mem_cons_of_mem a h)
      simp [ha, ih ht]

theorem sum_ite_of_mem_nodup {α : Type} [AddCommMonoid α] (l : List ℕ)
    (e : ℕ) (f : ℕ → α) (hn : l.Nodup) (he : e ∈ l) :
    (l.map fun k => if k = e then f k else 0).sum = f e := by
  induction l with
  | nil => simp at he
  | cons a t ih =>
      rcases List.nodup_cons.mp hn with ⟨hat, hnt⟩
      rcases List.mem_cons.mp he with rfl | h
      · simp [sum_ite_of_not_mem t _ f hat]
      · have ha : a ≠ e := fun hae => hat (hae ▸ h)
        simp [ha, ih hnt h]

/-! ### Canonical triplet-list forms of the assembled operators -/

theorem grad_entries (m : Mesh) (lx : Option LinkExponents) :
    (build_gradient_core m lx).entries =
      (List.range m.numEdges).map
          (fun k => (k, m.edge1 k, lvwFun m lx k * ((gradWeight m k : ℚ) : ℂ))) ++
        (List.range m.numEdges).map
          (fun k => (k, m.edge0 k, -((gradWeight m k : ℚ) : ℂ))) := by
  simp only [build_gradient_core]
  rw [tripletsOf_append _ _ _ _ _ _ (by simp) (by simp),
    tripletsOf_map_left, tripletsOf_map_left]

theorem div_entries (m : Mesh) :
    (build_divergence m).entries =
      (List.range m.numEdges).map
          (fun k => (m.edge0 k, k, m.dualEdgeLength k / m.areas (m.edge0 k))) ++
        (List.range m.numEdges).map
          (fun k => (m.edge1 k, k, -(m.dualEdgeLength k / m.areas (m.edge1 k)))) := by
  simp only [build_divergence]
  rw [tripletsOf_append _ _ _ _ _ _ (by simp) (by simp),
    tripletsOf_map_middle, tripletsOf_map_middle]

theorem neumann_entries (m : Mesh) :
    (neumannCoo m).entries =
      (List.range m.boundaryEdgeIndices.length).map
          (fun p => (m.edge0 (m.boundaryEdgeIndices.getD p 0), p,
            m.edgeLength (m.boundaryEdgeIndices.getD p 0) /
              (2 * m.areas (m.edge0 (m.boundaryEdgeIndices.getD p 0))))) ++
        (List.range m.boundaryEdgeIndices.length).map
          (fun p => (m.edge1 (m.boundaryEdgeIndices.getD p 0), p,
            m.edgeLength (m.boundaryEdgeIndices.getD p 0) /
              (2 * m.areas (m.edge1 (m.boundaryEdgeIndices.getD p 0))))) := by
  simp only [neumannCoo]
  rw [tripletsOf_append _ _ _ _ _ _ (by simp) (by simp),
    tripletsOf_map_range, tripletsOf_map_range]

theorem lap_entries_canonical (m : Mesh) (lx : Option LinkExponents)
    (fixedSites : List ℕ) (E : ℚ) :
    (build_laplacian_core m lx fixedSites Option.none E).1.entries =
      ((List.range m.numEdges).filter
          (fun k => decide (m.edge0 k ∉ fixedSites))).map
          (fun k => (m.edge0 k, m.edge1 k, lapVal1 m lx k)) ++
        ((List.range m.numEdges).filter
          (fun k => decide (m.edge1 k ∉ fixedSites))).map
          (fun k => (m.edge1 k, m.edge0 k, lapVal2 m lx k)) ++
        ((List.range m.numEdges).filter
          (fun k => decide (m.edge0 k ∉ fixedSites))).map
          (fun k => (m.edge0 k, m.edge0 k, lapVal3 m k)) ++
        ((List.range m.numEdges).filter
          (fun k => decide (m.edge1 k ∉ fixedSites))).map
          (fun k => (m.edge1 k, m.edge1 k, lapVal4 m k)) ++
        fixedSites.map (fun f => (f, f, (E : ℂ))) := by
  have hmask : lapFreeRows m fixedSites =
      ((List.range m.numEdges).map
        (fun k => decide (m.edge0 k ∉ fixedSites)) ++
      ((List.range m.numEdges).map
        (fun k => decide (m.edge1 k ∉ fixedSites)) ++
      ((List.range m.numEdges).map
        (fun k => decide (m.edge0 k ∉ fixedSites)) ++
      (List.range m.numEdges).map
        (fun k => decide (m.edge1 k ∉ fixedSites))))) := by
    simp [lapFreeRows, lapRows, List.map_append, List.map_map,
      Function.comp_def, List.append_assoc]
  simp only [build_laplacian_core, lapRows, lapCols, lapValues, hmask,
    List.append_assoc]
  rw [maskFilter_append _ _ _ _ (by simp),
    maskFilter_append _ _ _ _ (by simp),
    maskFilter_append _ _ _ _ (by simp),
    maskFilter_append _ _ _ _ (by simp),
    maskFilter_append _ _ _ _ (by simp),
    maskFilter_append _ _ _ _ (by simp),
    maskFilter_append _ _ _ _ (by simp),
    maskFilter_append _ _ _ _ (by simp),
    maskFilter_append _ _ _ _ (by simp)]
  simp only [maskFilter_map_map]
  rw [tripletsOf_append _ _ _ _ _ _ (by simp) (by simp),
    tripletsOf_append _ _ _ _ _ _ (by simp) (by simp),
    tripletsOf_append _ _ _ _ _ _ (by simp) (by simp),
    tripletsOf_append _ _ _ _ _ _ (by simp) (by simp)]
  rw [tripletsOf_map_all, tripletsOf_map_all, tripletsOf_map_all,
    tripletsOf_map_all, tripletsOf_left_left]
  simp [List.append_assoc]

theorem lap_cooEntry (m : Mesh) (lx : Option LinkExponents)
    (fixedSites : List ℕ) (E : ℚ) (i j : ℕ) :
    cooEntry (build_laplacian_core m lx fixedSites Option.none E).1.entries
        i j =
      ((List.range m.numEdges).map fun k =>
          if m.edge0 k ∉ fixedSites then
            (if m.edge0 k = i ∧ m.edge1 k = j then lapVal1 m lx k else 0)
          else 0).sum +
        ((List.range m.numEdges).map fun k =>
          if m.edge1 k ∉ fixedSites then
            (if m.edge1 k = i ∧ m.edge0 k = j then lapVal2 m lx k else 0)
          else 0).sum +
        ((List.range m.numEdges).map fun k =>
          if m.edge0 k ∉ fixedSites then
            (if m.edge0 k = i ∧ m.edge0 k = j then lapVal3 m k else 0)
          else 0).sum +
        ((List.range m.numEdges).map fun k =>
          if m.edge1 k ∉ fixedSites then
            (if m.edge1 k = i ∧ m.edge1 k = j then lapVal4 m k else 0)
          else 0).sum +
        (fixedSites.map fun f => if f = i ∧ f = j then (E : ℂ) else 0).sum := by
  rw [lap_entries_canonical, cooEntry_append, cooEntry_append,
    cooEntry_append, cooEntry_append]
  rw [cooEntry_map, cooEntry_map, cooEntry_map, cooEntry_map, cooEntry_map]
  rw [sum_filter_map, sum_filter_map, sum_filter_map, sum_filter_map]
  refine congrArg₂ HAdd.hAdd (congrArg₂ HAdd.hAdd (congrArg₂ HAdd.hAdd
      (congrArg₂ HAdd.hAdd ?_ ?_) ?_) ?_) rfl <;>
    exact sum_map_congr _ _ _ fun a _ => by simp [decide_eq_true_eq]

/-! ### Helper lemmas for the claim proofs -/

theorem sum_map_eq_zero {α β : Type} [AddCommMonoid α] (l : List β)
    (f : β → α) (h : ∀ a ∈ l, f a = 0) : (l.map f).sum = 0 := by
  rw [sum_map_congr l f (fun _ => 0) h]
  simp

theorem cooEntry_triplet_map {α : Type} [AddCommMonoid α] (l : List ℕ)
    (r c : ℕ → ℕ) (v : ℕ → α) (i j : ℕ) :
    cooEntry (l.map fun k => (r k, c k, v k)) i j =
      (l.map fun k => if r k = i ∧ c k = j then v k else 0).sum := by
  rw [cooEntry_map]

theorem applyCoo_triplet_map {α : Type} [NonUnitalNonAssocSemiring α]
    (l : List ℕ) (r c : ℕ → ℕ) (v : ℕ → α) (φ : ℕ → α) (i : ℕ) :
    applyCoo (l.map fun k => (r k, c k, v k)) φ i =
      (l.map fun k => if r k = i then v k * φ (c k) else 0).sum := by
  rw [applyCoo_map]

theorem sum_ite_and_eq {α : Type} [AddCommMonoid α] (B b : ℕ) (hb : b < B)
    (A : ℕ → Prop) [DecidablePred A] (f : ℕ → α) :
    ((List.range B).map fun p => if A p ∧ p = b then f p else 0).sum =
      if A b then f b else 0 := by
  rw [sum_map_congr _ _ (fun p => if p = b then (if A p then f p else 0) else 0)
    (fun a _ => by by_cases hp : a = b <;> simp [hp])]
  exact sum_ite_of_mem_nodup _ _ _ (List.nodup_range _) (List.mem_range.mpr hb)

/-- In the Laplacian built with the internally computed mask, the diagonal
entry of a fixed site is exactly the fixed-site eigenvalue. -/
theorem lap_diag_fixed (m : Mesh) (lx : Option LinkExponents)
    (fixedSites : List ℕ) (E : ℚ) (hnd : fixedSites.Nodup) (f : ℕ)
    (hf : f ∈ fixedSites) :
    cooEntry (build_laplacian_core m lx fixedSites Option.none E).1.entries
      f f = (E : ℂ) := by
  rw [lap_cooEntry]
  rw [sum_map_eq_zero _ _ (fun a _ => by
        by_cases h0 : m.edge0 a = f
        · simp [h0, hf]
        · simp [h0]),
    sum_map_eq_zero _ _ (fun a _ => by
        by_cases h1 : m.edge1 a = f
        · simp [h1, hf]
        · simp [h1]),
    sum_map_eq_zero _ _ (fun a _ => by
        by_cases h0 : m.edge0 a = f
        · simp [h0, hf]
        · simp [h0]),
    sum_map_eq_zero _ _ (fun a _ => by
        by_cases h1 : m.edge1 a = f
        · simp [h1, hf]
        · simp [h1])]
  rw [sum_map_congr _ _ (fun g => if g = f then (E : ℂ) else 0)
    (fun a _ => by by_cases hg : a = f <;> simp [hg])]
  rw [sum_ite_of_mem_nodup _ _ _ hnd hf]
  simp

/-- In the Laplacian built with the internally computed mask, the off-diagonal
entries of a fixed row all vanish. -/
theorem lap_row_fixed_zero (m : Mesh) (lx : Option LinkExponents)
    (fixedSites : List ℕ) (E : ℚ) (f : ℕ) (hf : f ∈ fixedSites) (j : ℕ)
    (hj : j ≠ f) :
    cooEntry (build_laplacian_core m lx fixedSites Option.none E).1.entries
      f j = 0 := by
  rw [lap_cooEntry]
  rw [sum_map_eq_zero _ _ (fun a _ => by
        by_cases h0 : m.edge0 a = f
        · simp [h0, hf]
        · simp [h0]),
    sum_map_eq_zero _ _ (fun a _ => by
        by_cases h1 : m.edge1 a = f
        · simp [h1, hf]
        · simp [h1]),
    sum_map_eq_zero _ _ (fun a _ => by
        by_cases h0 : m.edge0 a = f
        · simp [h0, hf]
        · simp [h0]),
    sum_map_eq_zero _ _ (fun a _ => by
        by_cases h1 : m.edge1 a = f
        · simp [h1, hf]
        · simp [h1]),
    sum_map_eq_zero _ _ (fun a _ => by
        by_cases hg : a = f
        · simp [hg, Ne.symm hj]
        · simp [hg])]
  simp

/-- The Laplacian entry with no fixed sites: four unmasked assembly sums. -/
theorem lap_cooEntry_nofixed (m : Mesh) (lx : Option LinkExponents) (E : ℚ)
    (i j : ℕ) :
    cooEntry (build_laplacian_core m lx [] Option.none E).1.entries i j =
      ((List.range m.numEdges).map fun k =>
          if m.edge0 k = i ∧ m.edge1 k = j then lapVal1 m lx k else 0).sum +
        ((List.range m.numEdges).map fun k =>
          if m.edge1 k = i ∧ m.edge0 k = j then lapVal2 m lx k else 0).sum +
        ((List.range m.numEdges).map fun k =>
          if m.edge0 k = i ∧ m.edge0 k = j then lapVal3 m k else 0).sum +
        ((List.range m.numEdges).map fun k =>
          if m.edge1 k = i ∧ m.edge1 k = j then lapVal4 m k else 0).sum := by
  rw [lap_cooEntry]
  simp

/-- With `link_exponents = None` every assembled Laplacian value is real. -/
theorem lapVal_im_zero (m : Mesh) (k : ℕ) :
    (lapVal1 m Option.none k).im = 0 ∧ (lapVal2 m Option.none k).im = 0 ∧
      (lapVal3 m k).im = 0 ∧ (lapVal4 m k).im = 0 := by
  refine ⟨?_, ?_, ?_, ?_⟩ <;>
    simp [lapVal1, lapVal2, lapVal3, lapVal4, lvwFun, star_one, mul_one,
      ← Rat.cast_div, Complex.ratCast_im]

/-- Pointwise area-weighted symmetry of the unmasked Laplacian assembly
values under `link_exponents = None`. -/
theorem lap_sym_pointwise (m : Mesh) (h : ∀ s, m.areas s ≠ 0) (i j k : ℕ) :
    ((m.areas i : ℚ) : ℂ) *
        (if m.edge0 k = i ∧ m.edge1 k = j then lapVal1 m Option.none k else 0) +
      ((m.areas i : ℚ) : ℂ) *
        (if m.edge1 k = i ∧ m.edge0 k = j then lapVal2 m Option.none k else 0) +
      ((m.areas i : ℚ) : ℂ) *
        (if m.edge0 k = i ∧ m.edge0 k = j then lapVal3 m k else 0) +
      ((m.areas i : ℚ) : ℂ) *
        (if m.edge1 k = i ∧ m.edge1 k = j then lapVal4 m k else 0) =
    ((m.areas j : ℚ) : ℂ) *
        (if m.edge0 k = j ∧ m.edge1 k = i then lapVal1 m Option.none k else 0) +
      ((m.areas j : ℚ) : ℂ) *
        (if m.edge1 k = j ∧ m.edge0 k = i then lapVal2 m Option.none k else 0) +
      ((m.areas j : ℚ) : ℂ) *
        (if m.edge0 k = j ∧ m.edge0 k = i then lapVal3 m k else 0) +
      ((m.areas j : ℚ) : ℂ) *
        (if m.edge1 k = j ∧ m.edge1 k = i then lapVal4 m k else 0) := by
  simp only [lapVal1, lapVal2, lapVal3, lapVal4, lvwFun, star_one, mul_one]
  by_cases h1 : m.edge0 k = i <;> by_cases h2 : m.edge0 k = j <;>
    by_cases h3 : m.edge1 k = i <;> by_cases h4 : m.edge1 k = j <;>
      simp_all <;>
        field_simp [show ((m.areas i : ℚ) : ℂ) ≠ 0 from by exact_mod_cast h i,
          show ((m.areas j : ℚ) : ℂ) ≠ 0 from by exact_mod_cast h j]

/-! ### The claims -/

/-- C3: for every mesh and every (duplicate-free) non-empty fixed-site set
with eigenvalue `E`, each row of the Laplacian returned by `build_laplacian`
whose index is a fixed site equals `E` at the diagonal position and zero at
every other column. -/
theorem C3_fixed_rows_identity (m : Mesh) (lx : Option LinkExponents)
    (fixedSites : List ℕ) (E : ℚ) (hnd : fixedSites.Nodup) (f : ℕ)
    (hf : f ∈ fixedSites) :
    cooEntry (build_laplacian_core m lx fixedSites Option.none E).1.entries
        f f = (E : ℂ) ∧
      ∀ j, j ≠ f →
        cooEntry (build_laplacian_core m lx fixedSites Option.none E).1.entries
          f j = 0 :=
  ⟨lap_diag_fixed m lx fixedSites E hnd f hf,
    fun j hj => lap_row_fixed_zero m lx fixedSites E f hf j hj⟩

/-- Witness for C3 at the concrete mesh `mesh2` with fixed site 1 and
eigenvalue 5. -/
theorem C3_fixed_rows_identity_witness :
    List.Nodup [1] ∧ (1 : ℕ) ∈ [1] ∧
      (cooEntry
          (build_laplacian_core mesh2 Option.none [1] Option.none 5).1.entries
          1 1 = ((5 : ℚ) : ℂ) ∧
        ∀ j, j ≠ 1 →
          cooEntry
            (build_laplacian_core mesh2 Option.none [1] Option.none 5).1.entries
            1 j = 0) :=
  ⟨by decide, by decide,
    C3_fixed_rows_identity mesh2 Option.none [1] 5 (by decide) 1 (by decide)⟩

/-- C4: supplying `build_laplacian` with the free-row mask it would compute
internally from the same fixed-site set yields a result identical to
supplying `free_rows = None` (same triplet arrays, hence the same matrix,
and the same returned mask); this holds for the core assembler and for both
well-formed shapes of the `fixed_sites` argument. -/
theorem C4_free_rows_roundtrip :
    (∀ (m : Mesh) (lx : Option LinkExponents) (fixedSites : List ℕ) (E : ℚ),
        build_laplacian_core m lx fixedSites
            (Option.some (lapFreeRows m fixedSites)) E =
          build_laplacian_core m lx fixedSites Option.none E) ∧
      (∀ (m : Mesh) (lx : NpValue LinkExponents) (l : List ℕ) (E : ℚ),
        build_laplacian m lx (NpValue.arr l)
            (Option.some (lapFreeRows m l)) E =
          build_laplacian m lx (NpValue.arr l) Option.none E) ∧
      ∀ (m : Mesh) (lx : NpValue LinkExponents) (E : ℚ),
        build_laplacian m lx NpValue.none
            (Option.some (lapFreeRows m [])) E =
          build_laplacian m lx NpValue.none Option.none E := by
  refine ⟨fun m lx fixedSites E => rfl, fun m lx l E => ?_, fun m lx E => ?_⟩ <;>
    cases lx <;> rfl

/-- C6: `build_divergence` returns an `N × M` matrix whose action on an edge
field `v` at site `s` is the sum over edges of `± v k · dualEdgeLength k /
areas s`, with sign `+1` when `s` is endpoint 0 and `-1` when `s` is
endpoint 1 (both, cancelling, for a degenerate loop edge); and the builder
dispatch for DIVERGENCE uses only the mesh, ignoring the configured link
exponents and fixed sites. -/
theorem C6_divergence_contract (m : Mesh) (v : ℕ → ℚ) (s : ℕ) :
    (build_divergence m).shape = (m.numSites, m.numEdges) ∧
      applyCoo (build_divergence m).entries v s =
        ((List.range m.numEdges).map fun k =>
          ((if m.edge0 k = s then (1 : ℚ) else 0) -
              (if m.edge1 k = s then 1 else 0)) * v k *
            m.dualEdgeLength k / m.areas s).sum ∧
      ∀ (b : MatrixBuilder) (fr : Option (List Bool)),
        b.build (MatrixTypeArg.mk MatrixType.DIVERGENCE) fr =
          Except.ok (Operator.divergence (build_divergence b.mesh)) := by
  refine ⟨rfl, ?_, fun b fr => rfl⟩
  rw [div_entries, applyCoo_append, applyCoo_triplet_map,
    applyCoo_triplet_map, sum_map_add]
  refine sum_map_congr _ _ _ fun a _ => ?_
  by_cases h0 : m.edge0 a = s <;> by_cases h1 : m.edge1 a = s <;>
    simp [h0, h1] <;> ring

/-- C9 (code bug): cloning the default builder state does not preserve its
behaviour.  On the concrete mesh `mesh2`, the original default builder
builds the Laplacian successfully, while its clone fails: `np.copy(None)`
turned both `fixed_sites` and `link_exponents` into 0-d object arrays, so
the clone raises instead of building the same operator. -/
theorem C9_clone_default_state_broken :
    (MatrixBuilder.init mesh2).build (MatrixTypeArg.mk MatrixType.LAPLACIAN)
        Option.none =
      Except.ok (Operator.laplacian
        (build_laplacian_core mesh2 Option.none [] Option.none 1).1
        (build_laplacian_core mesh2 Option.none [] Option.none 1).2) ∧
    (MatrixBuilder.init mesh2).clone.build
        (MatrixTypeArg.mk MatrixType.LAPLACIAN) Option.none =
      Except.error "unsupported operand type for *: NoneType and float" :=
  ⟨rfl, rfl⟩

/-- C10: cloning a builder whose `fixed_sites` and `link_exponents` are
`None` gives a clone whose fields are the 0-d object array `np.copy(None)`
rather than `None`; the `is None` checks inside `build_laplacian` and
`build_gradient` therefore take the non-`None` branch for the clone (so its
builds fail on a mesh with at least one edge) while the original takes the
`None` branch (and builds successfully). -/
theorem C10_clone_none_becomes_null_array (m : Mesh)
    (fr : Option (List Bool)) (hM : 0 < m.numEdges) :
    (MatrixBuilder.init m).clone.fixed_sites = NpValue.nullArr ∧
      (MatrixBuilder.init m).clone.link_exponents = NpValue.nullArr ∧
      NpValue.isNone (MatrixBuilder.init m).clone.fixed_sites = false ∧
      NpValue.isNone (MatrixBuilder.init m).fixed_sites = true ∧
      NpValue.isNone (MatrixBuilder.init m).clone.link_exponents = false ∧
      NpValue.isNone (MatrixBuilder.init m).link_exponents = true ∧
      (MatrixBuilder.init m).clone.build
          (MatrixTypeArg.mk MatrixType.LAPLACIAN) fr =
        Except.error "unsupported operand type for *: NoneType and float" ∧
      (MatrixBuilder.init m).build (MatrixTypeArg.mk MatrixType.LAPLACIAN)
          fr =
        Except.ok (Operator.laplacian
          (build_laplacian_core m Option.none [] fr 1).1
          (build_laplacian_core m Option.none [] fr 1).2) ∧
      (MatrixBuilder.init m).clone.build
          (MatrixTypeArg.mk MatrixType.GRADIENT) fr =
        Except.error "unsupported operand type for *: NoneType and float" ∧
      (MatrixBuilder.init m).build (MatrixTypeArg.mk MatrixType.GRADIENT)
          fr =
        Except.ok (Operator.gradient (build_gradient_core m Option.none)) := by
  have hne : m.numEdges ≠ 0 := Nat.pos_iff_ne_zero.mp hM
  refine ⟨rfl, rfl, rfl, rfl, rfl, rfl, ?_, rfl, ?_, rfl⟩ <;>
    simp [MatrixBuilder.build, MatrixBuilder.clone, MatrixBuilder.init,
      npCopy, build_laplacian, build_gradient, hne, Except.map]

/-- Witness for C10 at the concrete mesh `mesh2`. -/
theorem C10_clone_none_becomes_null_array_witness :
    0 < mesh2.numEdges ∧
      ((MatrixBuilder.init mesh2).clone.fixed_sites = NpValue.nullArr ∧
        (MatrixBuilder.init mesh2).clone.link_exponents = NpValue.nullArr ∧
        NpValue.isNone (MatrixBuilder.init mesh2).clone.fixed_sites = false ∧
        NpValue.isNone (MatrixBuilder.init mesh2).fixed_sites = true ∧
        NpValue.isNone (MatrixBuilder.init mesh2).clone.link_exponents =
          false ∧
        NpValue.isNone (MatrixBuilder.init mesh2).link_exponents = true ∧
        (MatrixBuilder.init mesh2).clone.build
            (MatrixTypeArg.mk MatrixType.LAPLACIAN) Option.none =
          Except.error "unsupported operand type for *: NoneType and float" ∧
        (MatrixBuilder.init mesh2).build
            (MatrixTypeArg.mk MatrixType.LAPLACIAN) Option.none =
          Except.ok (Operator.laplacian
            (build_laplacian_core mesh2 Option.none [] Option.none 1).1
            (build_laplacian_core mesh2 Option.none [] Option.none 1).2) ∧
        (MatrixBuilder.init mesh2).clone.build
            (MatrixTypeArg.mk MatrixType.GRADIENT) Option.none =
          Except.error "unsupported operand type for *: NoneType and float" ∧
        (MatrixBuilder.init mesh2).build
            (MatrixTypeArg.mk MatrixType.GRADIENT) Option.none =
          Except.ok (Operator.gradient
            (build_gradient_core mesh2 Option.none))) :=
  ⟨by decide,
    C10_clone_none_becomes_null_array mesh2 Option.none (by decide)⟩

/-- C8 counterexample: the claim fails as stated.  A builder state reachable
through the public API (set link exponents, then clone: the clone keeps
`fixed_sites = np.copy(None)`, a 0-d object array) makes `build` raise a
`ValueError` (`np.concatenate` on a zero-dimensional array) even though the
requested LAPLACIAN kind is inside the enumeration. -/
theorem C8_counterexample_value_error_inside_enum :
    ((MatrixBuilder.init mesh2).with_link_exponents lxZero).clone.build
        (MatrixTypeArg.mk MatrixType.LAPLACIAN) Option.none =
      Except.error "zero-dimensional arrays cannot be concatenated" :=
  rfl

/-- C8 (amended): for every builder state whose `fixed_sites` and
`link_exponents` fields are `None` or genuine arrays (not the 0-d object
array a clone of `None` produces), `build` fails, with the descriptive
unknown-matrix-type `ValueError`, exactly on requests outside the closed
enumeration, and succeeds on all four enumerated kinds. -/
theorem C8_build_total_on_enum (b : MatrixBuilder) (fr : Option (List Bool))
    (hfs : b.fixed_sites ≠ NpValue.nullArr)
    (hlx : b.link_exponents ≠ NpValue.nullArr) :
    (∀ s, b.build (MatrixTypeArg.unknown s) fr =
        Except.error ("Unknown matrix type: " ++ s ++ ".")) ∧
      ∀ t : MatrixType, ∃ op : Operator,
        b.build (MatrixTypeArg.mk t) fr = Except.ok op := by
  constructor
  · intro s
    rfl
  · intro t
    cases t with
    | GRADIENT =>
        cases hl : b.link_exponents with
        | nullArr => exact absurd hl hlx
        | none =>
            refine ⟨Operator.gradient (build_gradient_core b.mesh
              Option.none), ?_⟩
            simp only [MatrixBuilder.build, hl, build_gradient]
            rfl
        | arr a =>
            refine ⟨Operator.gradient (build_gradient_core b.mesh
              (Option.some a)), ?_⟩
            simp only [MatrixBuilder.build, hl, build_gradient]
            rfl
    | DIVERGENCE => exact ⟨Operator.divergence (build_divergence b.mesh), rfl⟩
    | LAPLACIAN =>
        cases hl : b.link_exponents with
        | nullArr => exact absurd hl hlx
        | none =>
            cases hf : b.fixed_sites with
            | nullArr => exact absurd hf hfs
            | none =>
                refine ⟨Operator.laplacian
                  (build_laplacian_core b.mesh Option.none [] fr
                    b.fixed_sites_eigenvalue).1
                  (build_laplacian_core b.mesh Option.none [] fr
                    b.fixed_sites_eigenvalue).2, ?_⟩
                simp only [MatrixBuilder.build, hl, hf, build_laplacian]
                rfl
            | arr l =>
                refine ⟨Operator.laplacian
                  (build_laplacian_core b.mesh Option.none l fr
                    b.fixed_sites_eigenvalue).1
                  (build_laplacian_core b.mesh Option.none l fr
                    b.fixed_sites_eigenvalue).2, ?_⟩
                simp only [MatrixBuilder.build, hl, hf, build_laplacian]
                rfl
        | arr a =>
            cases hf : b.fixed_sites with
            | nullArr => exact absurd hf hfs
            | none =>
                refine ⟨Operator.laplacian
                  (build_laplacian_core b.mesh (Option.some a) [] fr
                    b.fixed_sites_eigenvalue).1
                  (build_laplacian_core b.mesh (Option.some a) [] fr
                    b.fixed_sites_eigenvalue).2, ?_⟩
                simp only [MatrixBuilder.build, hl, hf, build_laplacian]
                rfl
            | arr l =>
                refine ⟨Operator.laplacian
                  (build_laplacian_core b.mesh (Option.some a) l fr
                    b.fixed_sites_eigenvalue).1
                  (build_laplacian_core b.mesh (Option.some a) l fr
                    b.fixed_sites_eigenvalue).2, ?_⟩
                simp only [MatrixBuilder.build, hl, hf, build_laplacian]
                rfl
    | NEUMANN_BOUNDARY_LAPLACIAN =>
        cases hf : b.fixed_sites with
        | nullArr => exact absurd hf hfs
        | none =>
            refine ⟨Operator.neumann
              (build_neumann_boundary_laplacian_core b.mesh Option.none), ?_⟩
            simp only [MatrixBuilder.build, hf,
              build_neumann_boundary_laplacian]
            rfl
        | arr l =>
            refine ⟨Operator.neumann
              (build_neumann_boundary_laplacian_core b.mesh
                (Option.some l)), ?_⟩
            simp only [MatrixBuilder.build, hf,
              build_neumann_boundary_laplacian]
            rfl

/-- Witness for the amended C8 at the concrete default builder on `mesh2`. -/
theorem C8_build_total_on_enum_witness :
    (MatrixBuilder.init mesh2).fixed_sites ≠ NpValue.nullArr ∧
      (MatrixBuilder.init mesh2).link_exponents ≠ NpValue.nullArr ∧
      ((∀ s, (MatrixBuilder.init mesh2).build (MatrixTypeArg.unknown s)
          Option.none =
          Except.error ("Unknown matrix type: " ++ s ++ ".")) ∧
        ∀ t : MatrixType, ∃ op : Operator,
          (MatrixBuilder.init mesh2).build (MatrixTypeArg.mk t)
            Option.none = Except.ok op) :=
  ⟨fun h => NpValue.noConfusion h, fun h => NpValue.noConfusion h,
    C8_build_total_on_enum (MatrixBuilder.init mesh2) Option.none
      (fun h => NpValue.noConfusion h) (fun h => NpValue.noConfusion h)⟩

/-- C5: `build_gradient` returns an `M × N` matrix whose action on a site
field `φ` at edge `e` is `(φ[end1] · linkWeight[e] - φ[end0]) /
edgeLength[e]`, where the link weight is
`exp(-i · (lx[e].0 · direction0[e] + lx[e].1 · direction1[e]))` when link
exponents are supplied and `1` otherwise; the weight multiplies only the
endpoint-1 term. -/
theorem C5_gradient_contract (m : Mesh) (lx : Option LinkExponents)
    (φ : ℕ → ℂ) (e : ℕ) (he : e < m.numEdges) :
    (build_gradient_core m lx).shape = (m.numEdges, m.numSites) ∧
      applyCoo (build_gradient_core m lx).entries φ e =
        (φ (m.edge1 e) *
            (match lx with
             | Option.none => (1 : ℂ)
             | Option.some a =>
                 Complex.exp (-Complex.I *
                   (((a e).1 * m.direction0 e + (a e).2 * m.direction1 e :
                     ℚ) : ℂ))) -
          φ (m.edge0 e)) / ((m.edgeLength e : ℚ) : ℂ) := by
  refine ⟨rfl, ?_⟩
  rw [grad_entries, applyCoo_append, applyCoo_triplet_map,
    applyCoo_triplet_map,
    sum_ite_of_mem_nodup _ _ _ (List.nodup_range _) (List.mem_range.mpr he),
    sum_ite_of_mem_nodup _ _ _ (List.nodup_range _) (List.mem_range.mpr he)]
  rcases lx with _ | a <;>
    · simp only [lvwFun, gradWeight]
      push_cast
      ring

/-- Witness for C5 at the concrete mesh `mesh2`, edge 0, and the site field
`φ n = n`. -/
theorem C5_gradient_contract_witness :
    0 < mesh2.numEdges ∧
      ((build_gradient_core mesh2 Option.none).shape =
          (mesh2.numEdges, mesh2.numSites) ∧
        applyCoo (build_gradient_core mesh2 Option.none).entries
            (fun n => (n : ℂ)) 0 =
          (((mesh2.edge1 0 : ℕ) : ℂ) *
              (match (Option.none : Option LinkExponents) with
               | Option.none => (1 : ℂ)
               | Option.some a =>
                   Complex.exp (-Complex.I *
                     (((a 0).1 * mesh2.direction0 0 +
                       (a 0).2 * mesh2.direction1 0 : ℚ) : ℂ))) -
            ((mesh2.edge0 0 : ℕ) : ℂ)) /
            ((mesh2.edgeLength 0 : ℚ) : ℂ)) :=
  ⟨by decide,
    C5_gradient_contract mesh2 Option.none (fun n => (n : ℂ)) 0 (by decide)⟩

/-- C7: `build_neumann_boundary_laplacian` returns an `N × B` matrix whose
column for the `b`-th boundary edge contributes
`boundaryEdgeLength / (2 · area[endpoint])` to each of the two endpoint
rows of that edge, and whose rows at fixed sites are identically zero after
construction. -/
theorem C7_neumann_contract (m : Mesh) (fs : Option (List ℕ)) (s b : ℕ)
    (hb : b < m.boundaryEdgeIndices.length) :
    (build_neumann_boundary_laplacian_core m fs).shape =
      (m.numSites, m.boundaryEdgeIndices.length) ∧
      (s ∈ fs.getD [] →
        (build_neumann_boundary_laplacian_core m fs).entry s b = 0) ∧
      (s ∉ fs.getD [] →
        (build_neumann_boundary_laplacian_core m fs).entry s b =
          (if m.edge0 (m.boundaryEdgeIndices.getD b 0) = s then
              m.edgeLength (m.boundaryEdgeIndices.getD b 0) /
                (2 * m.areas s)
            else 0) +
          (if m.edge1 (m.boundaryEdgeIndices.getD b 0) = s then
              m.edgeLength (m.boundaryEdgeIndices.getD b 0) /
                (2 * m.areas s)
            else 0)) := by
  have hout : cooEntry (neumannCoo m).entries s b =
      (if m.edge0 (m.boundaryEdgeIndices.getD b 0) = s then
          m.edgeLength (m.boundaryEdgeIndices.getD b 0) / (2 * m.areas s)
        else 0) +
      (if m.edge1 (m.boundaryEdgeIndices.getD b 0) = s then
          m.edgeLength (m.boundaryEdgeIndices.getD b 0) / (2 * m.areas s)
        else 0) := by
    rw [neumann_entries, cooEntry_append, cooEntry_triplet_map,
      cooEntry_triplet_map, sum_ite_and_eq _ _ hb, sum_ite_and_eq _ _ hb]
    have t0 : (if m.edge0 (m.boundaryEdgeIndices.getD b 0) = s then
        m.edgeLength (m.boundaryEdgeIndices.getD b 0) /
          (2 * m.areas (m.edge0 (m.boundaryEdgeIndices.getD b 0)))
      else 0) =
        (if m.edge0 (m.boundaryEdgeIndices.getD b 0) = s then
          m.edgeLength (m.boundaryEdgeIndices.getD b 0) / (2 * m.areas s)
        else 0) := by
      by_cases hc : m.edge0 (m.boundaryEdgeIndices.getD b 0) = s
      · rw [hc]
      · rw [if_neg hc, if_neg hc]
    have t1 : (if m.edge1 (m.boundaryEdgeIndices.getD b 0) = s then
        m.edgeLength (m.boundaryEdgeIndices.getD b 0) /
          (2 * m.areas (m.edge1 (m.boundaryEdgeIndices.getD b 0)))
      else 0) =
        (if m.edge1 (m.boundaryEdgeIndices.getD b 0) = s then
          m.edgeLength (m.boundaryEdgeIndices.getD b 0) / (2 * m.areas s)
        else 0) := by
      by_cases hc : m.edge1 (m.boundaryEdgeIndices.getD b 0) = s
      · rw [hc]
      · rw [if_neg hc, if_neg hc]
    rw [t0, t1]
  refine ⟨by cases fs <;> rfl, ?_, ?_⟩
  · intro hs
    cases fs with
    | none => simp at hs
    | some l =>
        simp only [Option.getD] at hs
        simp [build_neumann_boundary_laplacian_core, neumannCoo, hs]
  · intro hs
    cases fs with
    | none => exact hout
    | some l =>
        simp only [Option.getD] at hs
        simpa [build_neumann_boundary_laplacian_core, neumannCoo, hs]
          using hout

/-- Witness for C7 at the concrete mesh `mesh2` with fixed site 1, row 0,
boundary column 0. -/
theorem C7_neumann_contract_witness :
    0 < mesh2.boundaryEdgeIndices.length ∧
      ((build_neumann_boundary_laplacian_core mesh2
          (Option.some [1])).shape =
        (mesh2.numSites, mesh2.boundaryEdgeIndices.length) ∧
      ((0 : ℕ) ∈ (Option.some [1]).getD [] →
        (build_neumann_boundary_laplacian_core mesh2
          (Option.some [1])).entry 0 0 = 0) ∧
      ((0 : ℕ) ∉ (Option.some [1]).getD [] →
        (build_neumann_boundary_laplacian_core mesh2
            (Option.some [1])).entry 0 0 =
          (if mesh2.edge0 (mesh2.boundaryEdgeIndices.getD 0 0) = 0 then
              mesh2.edgeLength (mesh2.boundaryEdgeIndices.getD 0 0) /
                (2 * mesh2.areas 0)
            else 0) +
          (if mesh2.edge1 (mesh2.boundaryEdgeIndices.getD 0 0) = 0 then
              mesh2.edgeLength (mesh2.boundaryEdgeIndices.getD 0 0) /
                (2 * mesh2.areas 0)
            else 0))) :=
  ⟨by decide, C7_neumann_contract mesh2 (Option.some [1]) 0 0 (by decide)⟩

/-- C1 counterexample: the claim that every triplet entry whose row OR
column index is a fixed site is dropped fails.  On `mesh2` with fixed site
1, the entry at row 0 (a free row) and column 1 (the fixed site) survives
the assembly with value 1 instead of being dropped (which would leave 0). -/
theorem C1_counterexample_fixed_column_kept :
    (0 : ℕ) ∉ ([1] : List ℕ) ∧ (1 : ℕ) ∈ ([1] : List ℕ) ∧
      cooEntry
        (build_laplacian_core mesh2 Option.none [1] Option.none 1).1.entries
        0 1 = 1 ∧ (1 : ℂ) ≠ 0 := by
  refine ⟨by decide, by decide, ?_, one_ne_zero⟩
  rw [lap_cooEntry]
  norm_num [List.range_succ, List.range_zero, mesh2, lapVal1, lapVal2,
    lapVal3, lapVal4, lapWeight, lvwFun]

/-- C1 (amended): in a non-fixed row `i`, the off-diagonal entry `(i, j)`
is assembled from the edges between `i` and `j` as
`(dualEdgeLength/edgeLength) · linkWeight` (conjugated for the reversed
direction) divided by the dual area of the source site `i`; only triplet
entries whose ROW index is a fixed site are dropped from the general
assembly (entries of free rows whose column is a fixed site are kept); and
the diagonal entry of each fixed site is set to `E`. -/
theorem C1_laplacian_assembly (m : Mesh) (lx : Option LinkExponents)
    (fixedSites : List ℕ) (E : ℚ) (hnd : fixedSites.Nodup) (i j : ℕ)
    (hi : i ∉ fixedSites) (hij : j ≠ i) :
    cooEntry (build_laplacian_core m lx fixedSites Option.none E).1.entries
        i j =
      ((List.range m.numEdges).map fun k =>
          if m.edge0 k = i ∧ m.edge1 k = j then
            (lapWeight m k : ℂ) * lvwFun m lx k / ((m.areas i : ℚ) : ℂ)
          else 0).sum +
        ((List.range m.numEdges).map fun k =>
          if m.edge1 k = i ∧ m.edge0 k = j then
            (lapWeight m k : ℂ) * star (lvwFun m lx k) /
              ((m.areas i : ℚ) : ℂ)
          else 0).sum ∧
      ∀ f ∈ fixedSites,
        cooEntry (build_laplacian_core m lx fixedSites Option.none E).1.entries
          f f = (E : ℂ) := by
  constructor
  · rw [lap_cooEntry]
    have hb1 : ((List.range m.numEdges).map fun k =>
        if m.edge0 k ∉ fixedSites then
          (if m.edge0 k = i ∧ m.edge1 k = j then lapVal1 m lx k else 0)
        else 0).sum =
        ((List.range m.numEdges).map fun k =>
          if m.edge0 k = i ∧ m.edge1 k = j then
            (lapWeight m k : ℂ) * lvwFun m lx k / ((m.areas i : ℚ) : ℂ)
          else 0).sum :=
      sum_map_congr _ _ _ fun a _ => by
        by_cases hc : m.edge0 a = i ∧ m.edge1 a = j
        · have hni : m.edge0 a ∉ fixedSites := hc.1.symm ▸ hi
          simp [hc.1, hc.2, hni, lapVal1, hi]
        · simp [hc]
    have hb2 : ((List.range m.numEdges).map fun k =>
        if m.edge1 k ∉ fixedSites then
          (if m.edge1 k = i ∧ m.edge0 k = j then lapVal2 m lx k else 0)
        else 0).sum =
        ((List.range m.numEdges).map fun k =>
          if m.edge1 k = i ∧ m.edge0 k = j then
            (lapWeight m k : ℂ) * star (lvwFun m lx k) /
              ((m.areas i : ℚ) : ℂ)
          else 0).sum :=
      sum_map_congr _ _ _ fun a _ => by
        by_cases hc : m.edge1 a = i ∧ m.edge0 a = j
        · have hni : m.edge1 a ∉ fixedSites := hc.1.symm ▸ hi
          simp [hc.1, hc.2, hni, lapVal2, hi]
        · simp [hc]
    have hb3 : ((List.range m.numEdges).map fun k =>
        if m.edge0 k ∉ fixedSites then
          (if m.edge0 k = i ∧ m.edge0 k = j then lapVal3 m k else 0)
        else 0).sum = 0 :=
      sum_map_eq_zero _ _ fun a _ => by
        by_cases hc : m.edge0 a = i ∧ m.edge0 a = j
        · exact absurd (hc.1.symm.trans hc.2) (Ne.symm hij)
        · simp [hc]
    have hb4 : ((List.range m.numEdges).map fun k =>
        if m.edge1 k ∉ fixedSites then
          (if m.edge1 k = i ∧ m.edge1 k = j then lapVal4 m k else 0)
        else 0).sum = 0 :=
      sum_map_eq_zero _ _ fun a _ => by
        by_cases hc : m.edge1 a = i ∧ m.edge1 a = j
        · exact absurd (hc.1.symm.trans hc.2) (Ne.symm hij)
        · simp [hc]
    have hb5 : (fixedSites.map fun f =>
        if f = i ∧ f = j then (E : ℂ) else 0).sum = 0 :=
      sum_map_eq_zero _ _ fun a ha => by
        by_cases hc : a = i ∧ a = j
        · exact absurd (hc.1 ▸ ha) hi
        · simp [hc]
    rw [hb1, hb2, hb3, hb4, hb5]
    ring
  · exact fun f hf => lap_diag_fixed m lx fixedSites E hnd f hf

/-- Witness for the amended C1 at the concrete mesh `mesh2`, fixed site 1,
row 0, column 1. -/
theorem C1_laplacian_assembly_witness :
    List.Nodup [1] ∧ (0 : ℕ) ∉ ([1] : List ℕ) ∧ (1 : ℕ) ≠ 0 ∧
      (cooEntry
          (build_laplacian_core mesh2 Option.none [1] Option.none 1).1.entries
          0 1 =
        ((List.range mesh2.numEdges).map fun k =>
            if mesh2.edge0 k = 0 ∧ mesh2.edge1 k = 1 then
              (lapWeight mesh2 k : ℂ) * lvwFun mesh2 Option.none k /
                ((mesh2.areas 0 : ℚ) : ℂ)
            else 0).sum +
          ((List.range mesh2.numEdges).map fun k =>
            if mesh2.edge1 k = 0 ∧ mesh2.edge0 k = 1 then
              (lapWeight mesh2 k : ℂ) * star (lvwFun mesh2 Option.none k) /
                ((mesh2.areas 0 : ℚ) : ℂ)
            else 0).sum ∧
        ∀ f ∈ ([1] : List ℕ),
          cooEntry
            (build_laplacian_core mesh2 Option.none [1] Option.none 1).1.entries
            f f = ((1 : ℚ) : ℂ)) :=
  ⟨by decide, by decide, by decide,
    C1_laplacian_assembly mesh2 Option.none [1] 1 (by decide) 0 1
      (by decide) (by decide)⟩

/-- C2 counterexample: with `link_exponents = None` and no fixed sites the
Laplacian need not equal its transpose.  On `mesh2`, whose two dual areas
are 1 and 2, the entries `(0, 1)` and `(1, 0)` differ. -/
theorem C2_counterexample_not_symmetric :
    cooEntry
        (build_laplacian_core mesh2 Option.none [] Option.none 1).1.entries
        0 1 ≠
      cooEntry
        (build_laplacian_core mesh2 Option.none [] Option.none 1).1.entries
        1 0 := by
  rw [lap_cooEntry_nofixed, lap_cooEntry_nofixed]
  norm_num [List.range_succ, List.range_zero, mesh2, lapVal1, lapVal2,
    lapVal3, lapVal4, lapWeight, lvwFun, star_one]

/-- C2 (amended): with `link_exponents = None` and `fixed_sites = None` the
Laplacian is real, and it is symmetric after weighting each row by its dual
area: `areas i · L i j = areas j · L j i` (for nonzero dual areas).  `L`
itself equals its transpose only when the relevant dual areas coincide. -/
theorem C2_real_and_area_weighted_symmetric (m : Mesh)
    (h : ∀ s, m.areas s ≠ 0) (E : ℚ) (i j : ℕ) :
    (cooEntry (build_laplacian_core m Option.none [] Option.none E).1.entries
        i j).im = 0 ∧
      ((m.areas i : ℚ) : ℂ) *
          cooEntry
            (build_laplacian_core m Option.none [] Option.none E).1.entries
            i j =
        ((m.areas j : ℚ) : ℂ) *
          cooEntry
            (build_laplacian_core m Option.none [] Option.none E).1.entries
            j i := by
  have him : ∀ (l : List ℂ), (∀ x ∈ l, x.im = 0) → l.sum.im = 0 :=
    fun l hl => by
      rw [list_sum_im]
      exact sum_map_eq_zero l Complex.im hl
  constructor
  · rw [lap_cooEntry_nofixed]
    rw [Complex.add_im, Complex.add_im, Complex.add_im]
    rw [him _ (fun x hx => by
          rcases List.mem_map.mp hx with ⟨k, _, rfl⟩
          simp [apply_ite Complex.im, (lapVal_im_zero m k).1]),
      him _ (fun x hx => by
          rcases List.mem_map.mp hx with ⟨k, _, rfl⟩
          simp [apply_ite Complex.im, (lapVal_im_zero m k).2.1]),
      him _ (fun x hx => by
          rcases List.mem_map.mp hx with ⟨k, _, rfl⟩
          simp [apply_ite Complex.im, (lapVal_im_zero m k).2.2.1]),
      him _ (fun x hx => by
          rcases List.mem_map.mp hx with ⟨k, _, rfl⟩
          simp [apply_ite Complex.im, (lapVal_im_zero m k).2.2.2])]
    norm_num
  · rw [lap_cooEntry_nofixed, lap_cooEntry_nofixed]
    rw [mul_add, mul_add, mul_add, mul_add, mul_add, mul_add]
    rw [mul_sum_map, mul_sum_map, mul_sum_map, mul_sum_map, mul_sum_map,
      mul_sum_map, mul_sum_map, mul_sum_map]
    rw [sum_map_add, sum_map_add, sum_map_add, sum_map_add, sum_map_add,
      sum_map_add]
    exact sum_map_congr _ _ _ fun k _ => lap_sym_pointwise m h i j k

/-- Witness for the amended C2 at the concrete mesh `mesh2`. -/
theorem C2_real_and_area_weighted_symmetric_witness :
    (∀ s, mesh2.areas s ≠ 0) ∧
      ((cooEntry
          (build_laplacian_core mesh2 Option.none [] Option.none 1).1.entries
          0 1).im = 0 ∧
        ((mesh2.areas 0 : ℚ) : ℂ) *
            cooEntry
              (build_laplacian_core mesh2 Option.none [] Option.none
                1).1.entries 0 1 =
          ((mesh2.areas 1 : ℚ) : ℂ) *
            cooEntry
              (build_laplacian_core mesh2 Option.none [] Option.none
                1).1.entries 1 0) :=
  ⟨fun s => by dsimp [mesh2]; split <;> norm_num,
    C2_real_and_area_weighted_symmetric mesh2
      (fun s => by dsimp [mesh2]; split <;> norm_num) 1 0 1⟩

end Tdgl
